import Mathlib

/-!
Shallow embedding of the distributed-computing assignments repository:
a Lamport-clock mutual-exclusion protocol and a Byzantine Oral-Messages
OM(m) agreement protocol, each present in several near-duplicate Python
variants:

* `src/combined_assignments.py` — classes `LamportNode` and `ByzantineNode`
  plus the driver `run_byzantine_simulation`;
* `src/Assignment-1-Lamport-Mutex/lamport_node.py` — class `LamportNode`;
* `src/Assignment-1-Lamport-Mutex/code/node.py` — class `LamportNode`;
* `src/Assignment-2-Byzantine-Agreement/byzantine_node.py` — class `Lieutenant`;
* `src/Assignment-2-Byzantine-Agreement/code/lieutenant.py` — class `Lieutenant`.

Python dictionaries are modelled as association lists preserving insertion
order, `collections.Counter.most_common(1)` as a fold over keys in
first-occurrence order, `list.sort()` on `(timestamp, node_id)` tuples as an
insertion sort by the lexicographic order, and the RPC layer as direct
state-passing: an RPC handler becomes a pure function from the receiver's
state (and arguments) to the new state together with the list of messages
it sends onward.
-/

namespace DistAssign

/-- Association-list lookup, modelling Python `dict.get(k)` / `k in d`
(dicts keep keys in insertion order; keys here are unique). -/
def alookup {α β : Type} [DecidableEq α] : List (α × β) → α → Option β
  | [], _ => none
  | (k, v) :: rest, key => if k = key then some v else alookup rest key

/-- Model of `defaultdict(list)`'s `d[k].append(x)`: if the key is present,
append to its list; otherwise insert the key at the end (dict insertion
order) with a singleton list. -/
def storeAppend {α : Type} [DecidableEq α] :
    List (α × List String) → α → String → List (α × List String)
  | [], k, v => [(k, [v])]
  | (k', vs) :: rest, k, v =>
      if k' = k then (k', vs ++ [v]) :: rest else (k', vs) :: storeAppend rest k v

/-- Lexicographic order on `(timestamp, node_id)` pairs — Python's tuple
comparison used by `list.sort()` on the request queue. -/
def lexLe (a b : Nat × Nat) : Bool :=
  decide (a.1 < b.1 ∨ (a.1 = b.1 ∧ a.2 ≤ b.2))

/-- Insert one element into a list sorted by `lexLe`. -/
def insortLex (x : Nat × Nat) : List (Nat × Nat) → List (Nat × Nat)
  | [] => [x]
  | y :: ys => if lexLe x y then x :: y :: ys else y :: insortLex x ys

/-- Model of Python `list.sort()` on a list of `(timestamp, node_id)`
tuples: any comparison sort gives the same sorted result here, since
`lexLe`-equal pairs are identical. -/
def pysort (l : List (Nat × Nat)) : List (Nat × Nat) :=
  l.foldr insortLex []

/-- Insert one `Nat` into an ascending list. -/
def insortNat (x : Nat) : List Nat → List Nat
  | [] => [x]
  | y :: ys => if x ≤ y then x :: y :: ys else y :: insortNat x ys

/-- Model of Python `sorted(path)` on a list of node ids. -/
def sortNat (l : List Nat) : List Nat :=
  l.foldr insortNat []

/-- Fuel-driven worker for `firstOccurrences` (structural recursion on the
fuel, so that the kernel can evaluate it; the fuel is always at least the
list length). -/
def foAux : Nat → List String → List String
  | 0, _ => []
  | _, [] => []
  | fuel + 1, x :: xs => x :: foAux fuel (xs.filter (fun y => decide (y ≠ x)))

/-- Keys of a value list in first-occurrence order — the key order of a
Python `Counter`/`dict` built by iterating the list. -/
def firstOccurrences (l : List String) : List String :=
  foAux l.length l

/-- Model of `Counter(values).most_common(1)[0][0]`: among the keys with
maximal multiplicity, the one occurring first in `values` (CPython's
`most_common` sorts stably on counts over keys in first-occurrence order).
Returns `none` exactly when `values` is empty. -/
def mostCommon1 (values : List String) : Option String :=
  (firstOccurrences values).foldl
    (fun best k =>
      match best with
      | none => some k
      | some b => if values.count k > values.count b then some k else some b)
    none

/-- Model of `ByzantineNode._majority` in `combined_assignments.py`:
`RETREAT` on an empty list, otherwise `Counter(values).most_common(1)[0][0]`. -/
def pyMajority (values : List String) : String :=
  if values = [] then "RETREAT" else (mostCommon1 values).getD "RETREAT"

/-! ## Lamport mutual exclusion — `combined_assignments.py`, class `LamportNode` -/

/-- Mutex node state constants `'RELEASED' | 'WANTED' | 'HELD'`. -/
inductive NState
  | released
  | wanted
  | held
deriving DecidableEq, Repr

/-- Mutable fields of `combined_assignments.LamportNode`:
`id`, `total_nodes`, `clock`, `request_queue`, `replies_received`, `state`. -/
structure MState where
  nid : Nat
  total : Nat
  clock : Nat
  queue : List (Nat × Nat)
  replies : List Nat
  st : NState
deriving DecidableEq, Repr

/-- `LamportNode._tick_clock(received_clock=None)`. Python truthiness:
the `if received_clock:` branch is skipped both for `None` and for the
integer `0`, falling back to `clock += 1`. -/
def combinedTick (clock : Nat) (received : Option Nat) : Nat :=
  match received with
  | some t => if t ≠ 0 then max clock t + 1 else clock + 1
  | none => clock + 1

/-- `LamportNode.receive_request(timestamp, sender_id)`: tick the clock with
the received timestamp, append `(timestamp, sender_id)` and re-sort the queue. -/
def mReceiveRequest (s : MState) (ts sender : Nat) : MState :=
  { s with
    clock := combinedTick s.clock (some ts)
    queue := pysort (s.queue ++ [(ts, sender)]) }

/-- `LamportNode.receive_release(sender_id)`: tick the clock (no argument) and
drop every queue entry of the sender. -/
def mReceiveRelease (s : MState) (sender : Nat) : MState :=
  { s with
    clock := combinedTick s.clock none
    queue := s.queue.filter (fun r => decide (r.2 ≠ sender)) }

/-- `LamportNode.request_cs()` up to (and including) its local mutations,
together with the broadcast targets of the request it sends. When the state
is not `RELEASED` the call logs a warning and returns at once: no field is
touched and nothing is sent. -/
def mRequestCS (s : MState) : MState × List Nat :=
  if s.st ≠ NState.released then (s, [])
  else
    let c := combinedTick s.clock none
    ({ s with
        st := NState.wanted
        clock := c
        queue := pysort (s.queue ++ [(c, s.nid)])
        replies := [] },
      (List.range s.total).filter (fun i => decide (i ≠ s.nid)))

/-- A successful `proxy.receive_request` call in `LamportNode._broadcast`
records the implicit reply: `replies_received.add(i)`. -/
def mAckFrom (s : MState) (j : Nat) : MState :=
  { s with replies := if j ∈ s.replies then s.replies else s.replies ++ [j] }

/-- One evaluation of the entry check in the `request_cs` busy-wait loop
(reached only while the state is `WANTED`): with `total_nodes - 1` replies
and the own id at the head of the queue, `enter_cs` sets the state to `HELD`. -/
def mTryEnter (s : MState) : MState :=
  if s.st = NState.wanted ∧ s.replies.length = s.total - 1 ∧
      (s.queue.head?.map Prod.snd = some s.nid) then
    { s with st := NState.held }
  else s

/-- `LamportNode.release_cs()`: back to `RELEASED`, drop the own queue
entries, broadcast `RELEASE` (no clock tick in this variant). -/
def mReleaseCS (s : MState) : MState :=
  { s with
    st := NState.released
    queue := s.queue.filter (fun r => decide (r.2 ≠ s.nid)) }

/-- The operations that mutate a `combined_assignments.LamportNode`. -/
inductive MOp
  | recvRequest (ts sender : Nat)
  | recvRelease (sender : Nat)
  | requestCS
  | ack (j : Nat)
  | tryEnter
  | releaseCS
deriving DecidableEq, Repr

/-- Interpret one operation on the mutex node state. -/
def mStep (op : MOp) (s : MState) : MState :=
  match op with
  | MOp.recvRequest ts sender => mReceiveRequest s ts sender
  | MOp.recvRelease sender => mReceiveRelease s sender
  | MOp.requestCS => (mRequestCS s).1
  | MOp.ack j => mAckFrom s j
  | MOp.tryEnter => mTryEnter s
  | MOp.releaseCS => mReleaseCS s

/-- A freshly constructed `LamportNode(node_id, total_nodes)`. -/
def mInit (nid total : Nat) : MState :=
  ⟨nid, total, 0, [], [], NState.released⟩

/-- Run a sequence of operations from the freshly constructed node. -/
def mRun (nid total : Nat) (ops : List MOp) : MState :=
  ops.foldl (fun s op => mStep op s) (mInit nid total)

/-! ## Lamport mutual exclusion — `lamport_node.py`, class `LamportNode` -/

/-- Mutable fields of `lamport_node.LamportNode` relevant to its handlers. -/
structure LPState where
  nodeId : Nat
  total : Nat
  clock : Nat
  queue : List (Nat × Nat)
deriving DecidableEq, Repr

/-- `lamport_node.LamportNode.receive_request(timestamp, requester_id)`:
sets `clock = max(clock, timestamp) + 1`, appends and sorts the queue, and
then calls `_tick_clock()` once more before sending the reply. -/
def lpReceiveRequest (s : LPState) (ts requester : Nat) : LPState :=
  let c1 := max s.clock ts + 1
  { s with
    clock := c1 + 1
    queue := pysort (s.queue ++ [(ts, requester)]) }

/-! ## Lamport mutual exclusion — `code/node.py`, class `LamportNode` -/

/-- Mutable fields of `code/node.py`'s `LamportNode` relevant here. -/
structure NPState where
  nid : Nat
  total : Nat
  clock : Nat
  queue : List (Nat × Nat)
  ackCount : Nat
deriving DecidableEq, Repr

/-- `code/node.py receive_request(ts, node_id)`:
`clock = max(clock, ts) + 1`, append `(ts, node_id)`, sort. -/
def npReceiveRequest (s : NPState) (ts sender : Nat) : NPState :=
  { s with
    clock := max s.clock ts + 1
    queue := pysort (s.queue ++ [(ts, sender)]) }

/-- `code/node.py request_critical_section()`, in a quiescent system where
`ackCount` peers answer the broadcast and no concurrent queue mutation
happens: ticks the clock, inserts the own request, counts acks (a shortfall
only prints a warning — `continuing anyway`), then busy-waits until the own
request heads the queue and enters the critical section. Returns
(critical section entered, all-acks check passed, new state). -/
def npRequestCS (s : NPState) : Bool × Bool × NPState :=
  let ts := s.clock + 1
  let q := pysort (s.queue ++ [(ts, s.nid)])
  let ackOk := decide (s.ackCount ≥ s.total - 1)
  let entered := decide (q.head? = some (ts, s.nid))
  (entered, ackOk, { s with clock := ts, queue := q })

/-! ## Byzantine agreement — `combined_assignments.py`, class `ByzantineNode`
and driver `run_byzantine_simulation` -/

/-- A `ByzantineNode(node_id, total_nodes, is_traitor)` with its
`messages` defaultdict mapping `"->"`-joined path strings to the list of
orders received for that path. -/
structure BNode where
  nid : Nat
  total : Nat
  isTraitor : Bool
  messages : List (String × List String)
deriving DecidableEq, Repr

/-- Python `"->".join(map(str, path))`. -/
def pathStr (path : List Nat) : String :=
  String.intercalate "->" (path.map Nat.repr)

/-- `ByzantineNode.receive_message(commander_id_path, order)`:
`self.messages[path_str].append(order)`. -/
def bReceiveMessage (n : BNode) (path : List Nat) (order : String) : BNode :=
  { n with messages := storeAppend n.messages (pathStr path) order }

/-- The order actually sent to lieutenant `ltId` inside the
`ByzantineNode.execute_om` loop: a traitor flips ATTACK↔RETREAT, but only
for even-numbered targets (`lt_id % 2 == 0`). -/
def currentOrder (isTraitor : Bool) (order : String) (ltId : Nat) : String :=
  if isTraitor ∧ ltId % 2 = 0 then
    if order = "ATTACK" then "RETREAT" else "ATTACK"
  else order

/-- `ByzantineNode.execute_om(m, commander_id_path, order_to_send)` run by
node `senderId` against the whole node vector: each lieutenant outside the
path receives `currentOrder` via its `receive_message` handler. (The `m`
parameter of the Python method is unused by its body.) -/
def executeOm (total : Nat) (nodes : List BNode) (senderId : Nat)
    (path : List Nat) (order : String) : List BNode :=
  let isTr := ((nodes.get? senderId).map BNode.isTraitor).getD false
  let lieutenants := (List.range total).filter (fun i => decide (i ∉ path))
  lieutenants.foldl
    (fun ns lt =>
      ns.map (fun n => if n.nid = lt then bReceiveMessage n path (currentOrder isTr order lt) else n))
    nodes

/-- One iteration `i` of the driver loop in `run_byzantine_simulation`:
snapshot `current_paths = list(path_history)`, and for each path have its
last node run `execute_om` on the value it stored for the path's prefix
(default `commander_order` at the root, `"RETREAT"` when the prefix is
missing), growing `path_history` while `m - i > 0`. -/
def simStep (total m : Nat) (commanderOrder : String)
    (st : List BNode × List (List Nat)) (i : Nat) : List BNode × List (List Nat) :=
  st.2.foldl
    (fun st' path =>
      let ns := st'.1
      let curCmd := path.getLastD 0
      let orderToSend :=
        if path.length > 1 then
          (((ns.get? curCmd).map
              (fun n => ((alookup n.messages (pathStr (path.dropLast))).getD ["RETREAT"]).headD "RETREAT")).getD
            commanderOrder)
        else commanderOrder
      let ns' := executeOm total ns curCmd path orderToSend
      let h' :=
        if 0 < m - i then
          st'.2 ++ ((List.range total).filter (fun x => decide (x ∉ path))).map (fun lt => path ++ [lt])
        else st'.2
      (ns', h'))
    st

/-- `run_byzantine_simulation(total_nodes, num_traitors, commander_order)`:
reject `N ≤ 3m` before constructing any node or sending any message
(`none`); otherwise make the highest-numbered `num_traitors` nodes traitors,
run the `m + 1` driver iterations from `path_history = [[0]]` with
commander 0, and return the final node vector. -/
def runByzantine (total numTraitors : Nat) (commanderOrder : String) :
    Option (List BNode) :=
  if total ≤ 3 * numTraitors then none
  else
    let traitorIds := (List.range numTraitors).map (fun i => total - 1 - i)
    let nodes := (List.range total).map
      (fun i => BNode.mk i total (decide (i ∈ traitorIds)) [])
    let final := (List.range (numTraitors + 1)).foldl
      (simStep total numTraitors commanderOrder) (nodes, [[0]])
    some final.1

/-- The value `decide` reads from the direct commander path:
`messages.get(str(commander_id), ["RETREAT"])[0]`. -/
def combinedVCmd (msgs : List (String × List String)) (cmdId : Nat) : String :=
  ((alookup msgs (Nat.repr cmdId)).getD ["RETREAT"]).headD "RETREAT"

/-- The list `all_values` collected by `ByzantineNode.decide` in its
`m > 0` branch: the direct commander value first, then for every other
lieutenant the value stored for the two-hop path `commander->lt`
(`"RETREAT"` when missing). -/
def combinedAllValues (total cmdId nid : Nat)
    (msgs : List (String × List String)) : List String :=
  combinedVCmd msgs cmdId ::
    ((List.range total).filter (fun i => decide (i ≠ nid ∧ i ≠ cmdId))).map
      (fun lt =>
        ((alookup msgs (Nat.repr cmdId ++ "->" ++ Nat.repr lt)).getD ["RETREAT"]).headD "RETREAT")

/-- `ByzantineNode.decide(m, commander_id)`: the commander never decides
(`none`); `m = 0` trusts the direct commander value; `m > 0` takes
`_majority(all_values)`. -/
def combinedDecide (m cmdId : Nat) (n : BNode) : Option String :=
  if n.nid = cmdId then none
  else if m = 0 then some (combinedVCmd n.messages cmdId)
  else some (pyMajority (combinedAllValues n.total cmdId n.nid n.messages))

/-- The final decisions of `run_byzantine_simulation`: every
non-commander node runs `decide(m, 0)`. -/
def simDecisions (total numTraitors : Nat) (commanderOrder : String) :
    Option (List (Option String)) :=
  (runByzantine total numTraitors commanderOrder).map
    (fun ns => ns.map (combinedDecide numTraitors 0))

/-! ## Byzantine agreement — `byzantine_node.py`, class `Lieutenant` -/

/-- A `byzantine_node.Lieutenant(node_id, total_nodes, is_traitor)` with its
`messages` dict keyed by `tuple(sorted(path))`. -/
structure ByzLtState where
  nodeId : Nat
  total : Nat
  isTraitor : Bool
  messages : List (List Nat × List String)
deriving DecidableEq, Repr

/-- The traitor's rewrite in `byzantine_node.Lieutenant.receive_order`:
`"RETREAT" if order == "ATTACK" else "ATTACK"`. -/
def byzFlip (order : String) : String :=
  if order = "ATTACK" then "RETREAT" else "ATTACK"

/-- `byzantine_node.Lieutenant.receive_order(commander_id, order, path)`:
a traitor rebinds `order` to its flip before anything else, so the flipped
value is both stored (under key `tuple(sorted(path))`, appended to the
per-key list) and forwarded; with the hard-coded `m = 1`, paths of length
`≤ 1` are forwarded to every node in `range(1, total_nodes)` outside
`path + [self.node_id]`. Returns the new state and the list of
(target, order, path) forwards. (`commander_id` is unused by the body.) -/
def byzReceiveOrder (s : ByzLtState) (_commanderId : Nat) (order : String)
    (path : List Nat) : ByzLtState × List (Nat × String × List Nat) :=
  let order' := if s.isTraitor then byzFlip order else order
  let pathKey := sortNat path
  let msgs' := storeAppend s.messages pathKey order'
  let m := 1
  let fwd :=
    if path.length ≤ m then
      let newPath := path ++ [s.nodeId]
      ((List.range s.total).filter (fun i => decide (1 ≤ i ∧ i ∉ newPath))).map
        (fun lt => (lt, order', newPath))
    else []
  ({ s with messages := msgs' }, fwd)

/-- `byzantine_node.Lieutenant.decide()`: default `RETREAT` when no direct
commander message (key `tuple(sorted([0]))`) is stored; otherwise majority
(`Counter.most_common(1)`) over that first value and the first value of
every stored path of length 2. -/
def byzDecide (s : ByzLtState) : String :=
  match alookup s.messages (sortNat [0]) with
  | none => "RETREAT"
  | some l =>
      let vals := l.headD "RETREAT" ::
        (s.messages.filter (fun kv => decide (kv.1.length = 2))).map
          (fun kv => kv.2.headD "RETREAT")
      pyMajority vals

/-! ## Byzantine agreement — `code/lieutenant.py`, class `Lieutenant` -/

/-- A `code/lieutenant.py Lieutenant`: its id, the fault bound `f` from the
config, its Byzantine flag, the configured lieutenant ids, and the message
tree `msgs` keyed by path tuples (first write wins). -/
structure LieuState where
  lid : Nat
  f : Nat
  byzantine : Bool
  lieutIds : List Nat
  msgs : List (List Nat × String)
deriving DecidableEq, Repr

/-- `code/lieutenant.py Lieutenant._maybe_corrupt(val)`: the identity for a
loyal node; a Byzantine node flips ATTACK↔RETREAT and suffixes `"_BYZ"`
onto anything else. -/
def maybeCorrupt (byz : Bool) (v : String) : String :=
  if byz = false then v
  else if v = "ATTACK" then "RETREAT"
  else if v = "RETREAT" then "ATTACK"
  else v ++ "_BYZ"

/-- `code/lieutenant.py Lieutenant._forward_message(value, path)`: to every
configured lieutenant other than itself and the path members, send
`_maybe_corrupt(value)` with path `path + [self.id]`. -/
def lieuForwardMessage (s : LieuState) (value : String) (path : List Nat) :
    List (Nat × String × List Nat) :=
  (s.lieutIds.filter (fun lid => decide (lid ≠ s.lid ∧ lid ∉ path))).map
    (fun lid => (lid, maybeCorrupt s.byzantine value, path ++ [s.lid]))

/-- `code/lieutenant.py Lieutenant.receive_message(value, path)`: if a value
is already stored for the path tuple, do nothing; otherwise store `value`
verbatim and, while `len(path) < f`, forward via `_forward_message`. -/
def lieuReceiveMessage (s : LieuState) (value : String) (path : List Nat) :
    LieuState × List (Nat × String × List Nat) :=
  if (alookup s.msgs path).isSome then (s, [])
  else
    ({ s with msgs := s.msgs ++ [(path, value)] },
      if path.length < s.f then lieuForwardMessage s value path else [])

/-- `code/lieutenant.py Lieutenant.decide()`: `None` when no message is
stored, otherwise `Counter(values).most_common(1)[0][0]` over all stored
values. -/
def lieuDecide (s : LieuState) : Option String :=
  let values := s.msgs.map Prod.snd
  if values = [] then none
  else some ((mostCommon1 values).getD "RETREAT")

/-! ## Lemmas about the sorted request queue -/

/-- The request queue order invariant: pairwise `lexLe`. -/
def QSorted (l : List (Nat × Nat)) : Prop :=
  l.Pairwise (fun a b => lexLe a b = true)

theorem lexLe_total (a b : Nat × Nat) : lexLe a b = true ∨ lexLe b a = true := by
  simp only [lexLe, decide_eq_true_eq]
  omega

theorem lexLe_trans {a b c : Nat × Nat} (h1 : lexLe a b = true)
    (h2 : lexLe b c = true) : lexLe a c = true := by
  simp only [lexLe, decide_eq_true_eq] at h1 h2 ⊢
  omega

theorem mem_insortLex {x z : Nat × Nat} {l : List (Nat × Nat)} :
    z ∈ insortLex x l ↔ z = x ∨ z ∈ l := by
  induction l with
  | nil => simp [insortLex]
  | cons y ys ih =>
      by_cases h : lexLe x y = true
      · simp only [insortLex, if_pos h, List.mem_cons]
      · simp only [insortLex, if_neg h, List.mem_cons, ih]
        tauto

theorem qsorted_insortLex (x : Nat × Nat) {l : List (Nat × Nat)}
    (hs : QSorted l) : QSorted (insortLex x l) := by
  induction l with
  | nil => simp [insortLex, QSorted]
  | cons y ys ih =>
      unfold QSorted at hs ih ⊢
      rw [List.pairwise_cons] at hs
      by_cases h : lexLe x y = true
      · rw [insortLex, if_pos h, List.pairwise_cons]
        constructor
        · intro z hz
          rcases List.mem_cons.mp hz with rfl | hz
          · exact h
          · exact lexLe_trans h (hs.1 z hz)
        · exact List.pairwise_cons.mpr hs
      · rw [insortLex, if_neg h, List.pairwise_cons]
        constructor
        · intro z hz
          rcases mem_insortLex.mp hz with rfl | hz
          · rcases lexLe_total z y with h' | h'
            · exact absurd h' h
            · exact h'
          · exact hs.1 z hz
        · exact ih hs.2

theorem qsorted_pysort (l : List (Nat × Nat)) : QSorted (pysort l) := by
  induction l with
  | nil => simp [pysort, QSorted]
  | cons x xs ih => exact qsorted_insortLex x ih

theorem qsorted_filter {l : List (Nat × Nat)} (p : Nat × Nat → Bool)
    (hs : QSorted l) : QSorted (l.filter p) :=
  List.Pairwise.sublist (List.filter_sublist l) hs

theorem mStep_queue_sorted (op : MOp) (s : MState) (h : QSorted s.queue) :
    QSorted (mStep op s).queue := by
  cases op with
  | recvRequest ts sender =>
      simpa [mStep, mReceiveRequest] using qsorted_pysort (s.queue ++ [(ts, sender)])
  | recvRelease sender =>
      simpa [mStep, mReceiveRelease] using qsorted_filter _ h
  | requestCS =>
      simp only [mStep, mRequestCS]
      by_cases hst : s.st ≠ NState.released
      · simpa [hst] using h
      · simpa [hst] using qsorted_pysort _
  | ack j => simpa [mStep, mAckFrom] using h
  | tryEnter =>
      simp only [mStep, mTryEnter]
      split <;> simpa using h
  | releaseCS =>
      simpa [mStep, mReleaseCS] using qsorted_filter _ h

/-! ## Lemmas about `firstOccurrences` and `mostCommon1` -/

theorem foAux_fuel_irrel :
    ∀ (f1 f2 : Nat) (l : List String), l.length ≤ f1 → l.length ≤ f2 →
      foAux f1 l = foAux f2 l := by
  intro f1
  induction f1 with
  | zero =>
      intro f2 l h1 _
      rw [Nat.le_zero, List.length_eq_zero] at h1
      subst h1
      cases f2 <;> rfl
  | succ f1 ih =>
      intro f2 l h1 h2
      cases l with
      | nil => cases f2 <;> rfl
      | cons x xs =>
          cases f2 with
          | zero => exact absurd h2 (by simp)
          | succ f2 =>
              rw [foAux, foAux]
              congr 1
              have hle := List.length_filter_le (fun y => decide (y ≠ x)) xs
              exact ih f2 _
                (Nat.le_trans hle (Nat.le_of_succ_le_succ h1))
                (Nat.le_trans hle (Nat.le_of_succ_le_succ h2))

theorem firstOccurrences_nil : firstOccurrences [] = [] := rfl

theorem firstOccurrences_cons (x : String) (xs : List String) :
    firstOccurrences (x :: xs) =
      x :: firstOccurrences (xs.filter (fun y => decide (y ≠ x))) := by
  rw [firstOccurrences, List.length_cons, foAux, firstOccurrences]
  congr 1
  exact foAux_fuel_irrel _ _ _ (List.length_filter_le _ _) (Nat.le_refl _)

theorem fo_subset : ∀ (l : List String), ∀ k ∈ firstOccurrences l, k ∈ l
  | [] => by simp [firstOccurrences_nil]
  | x :: xs => by
      intro k hk
      rw [firstOccurrences_cons] at hk
      rcases List.mem_cons.mp hk with rfl | hk
      · exact List.mem_cons_self _ _
      · exact List.mem_cons_of_mem _
          (List.mem_of_mem_filter (fo_subset _ k hk))
termination_by l => l.length
decreasing_by
  simp only [List.length_cons]
  exact Nat.lt_succ_of_le (List.length_filter_le _ _)

theorem foldl_keep (values : List String) (b : String) :
    ∀ ks : List String, (∀ k ∈ ks, values.count k ≤ values.count b) →
      ks.foldl
        (fun best k =>
          match best with
          | none => some k
          | some b' => if values.count k > values.count b' then some k else some b')
        (some b) = some b := by
  intro ks
  induction ks with
  | nil => intro _; rfl
  | cons k ks ih =>
      intro h
      have hk : ¬ values.count k > values.count b :=
        Nat.not_lt.mpr (h k (List.mem_cons_self _ _))
      rw [List.foldl_cons]
      have hstep :
          (match some b with
            | none => some k
            | some b' => if values.count k > values.count b' then some k else some b')
            = (if values.count k > values.count b then some k else some b) := rfl
      rw [hstep, if_neg hk]
      exact ih (fun k' hk' => h k' (List.mem_cons_of_mem _ hk'))

theorem mostCommon1_cons (h : String) (t : List String)
    (hmax : ∀ k ∈ firstOccurrences (t.filter (fun y => decide (y ≠ h))),
      (h :: t).count k ≤ (h :: t).count h) :
    mostCommon1 (h :: t) = some h := by
  rw [mostCommon1, firstOccurrences_cons, List.foldl_cons]
  exact foldl_keep (h :: t) h _ hmax

theorem filter_ne_self_nil (h : String) (t : List String)
    (hall : ∀ x ∈ t, x = h) : t.filter (fun y => decide (y ≠ h)) = [] := by
  induction t with
  | nil => rfl
  | cons x xs ih =>
      have hx : x = h := hall x (List.mem_cons_self _ _)
      have hxs : ∀ y ∈ xs, y = h := fun y hm => hall y (List.mem_cons_of_mem _ hm)
      subst hx
      rw [List.filter_cons, if_neg (by simp)]
      exact ih hxs

theorem mostCommon1_const (h : String) (t : List String)
    (hall : ∀ x ∈ t, x = h) : mostCommon1 (h :: t) = some h := by
  apply mostCommon1_cons
  rw [filter_ne_self_nil h t hall]
  intro k hk
  simp [firstOccurrences_nil] at hk

theorem mostCommon1_tie (h : String) (t : List String)
    (hall : ∀ x ∈ h :: t, x = "ATTACK" ∨ x = "RETREAT")
    (htie : (h :: t).count "ATTACK" = (h :: t).count "RETREAT") :
    mostCommon1 (h :: t) = some h := by
  apply mostCommon1_cons
  intro k hk
  have hkt : k ∈ t := List.mem_of_mem_filter (fo_subset _ k hk)
  have hk2 := hall k (List.mem_cons_of_mem _ hkt)
  have hh := hall h (List.mem_cons_self _ _)
  rcases hk2 with rfl | rfl <;> rcases hh with rfl | rfl <;> omega

theorem pyMajority_const (h : String) (t : List String)
    (hall : ∀ x ∈ t, x = h) : pyMajority (h :: t) = h := by
  rw [pyMajority, if_neg (List.cons_ne_nil h t), mostCommon1_const h t hall]
  rfl

/-! ## Lemmas about the association-list stores -/

theorem alookup_append_single {α β : Type} [DecidableEq α]
    {l : List (α × β)} {k : α} (v : β) (h : alookup l k = none) :
    alookup (l ++ [(k, v)]) k = some v := by
  induction l with
  | nil => simp [alookup]
  | cons kv rest ih =>
      obtain ⟨k', v'⟩ := kv
      rw [alookup] at h
      by_cases hk : k' = k
      · rw [if_pos hk] at h
        exact absurd h (by simp)
      · rw [if_neg hk] at h
        rw [List.cons_append, alookup, if_neg hk]
        exact ih h

theorem storeAppend_of_absent {α : Type} [DecidableEq α]
    {l : List (α × List String)} {k : α} (v : String) (h : alookup l k = none) :
    storeAppend l k v = l ++ [(k, [v])] := by
  induction l with
  | nil => rfl
  | cons kv rest ih =>
      obtain ⟨k', v'⟩ := kv
      rw [alookup] at h
      by_cases hk : k' = k
      · rw [if_pos hk] at h
        exact absurd h (by simp)
      · rw [if_neg hk] at h
        rw [storeAppend, if_neg hk, List.cons_append, ih h]

theorem pyMajority_all_retreat (l : List String)
    (hall : ∀ x ∈ l, x = "RETREAT") (hne : l ≠ []) : pyMajority l = "RETREAT" := by
  cases l with
  | nil => exact absurd rfl hne
  | cons h t =>
      have hh := hall h (List.mem_cons_self _ _)
      subst hh
      exact pyMajority_const _ _ (fun x hx => hall x (List.mem_cons_of_mem _ hx))

theorem allValues_empty_retreat (total cmd nid : Nat) :
    ∀ v ∈ combinedAllValues total cmd nid [], v = "RETREAT" := by
  intro v hv
  rw [combinedAllValues] at hv
  rcases List.mem_cons.mp hv with rfl | hv
  · rfl
  · obtain ⟨lt, _, hlt⟩ := List.mem_map.mp hv
    subst hlt
    rfl

theorem allValues_ne_nil (total cmd nid : Nat) (msgs : List (String × List String)) :
    combinedAllValues total cmd nid msgs ≠ [] := by
  rw [combinedAllValues]
  exact List.cons_ne_nil _ _

/-! ## Claim theorems -/

/-- C1: in the Byzantine simulation of `combined_assignments.py` with
`totalNodes = 4`, `m = 1` and commander order ATTACK, the traitor set
computed by `run_byzantine_simulation` is exactly node 3, and both loyal
lieutenants (nodes 1 and 2) reach final decision ATTACK via `decide()`
(the traitor, node 3, also happens to decide ATTACK). -/
theorem om_scenario_n4_m1 :
    simDecisions 4 1 "ATTACK" =
      some [none, some "ATTACK", some "ATTACK", some "ATTACK"] ∧
    (runByzantine 4 1 "ATTACK").map (fun ns => ns.map BNode.isTraitor) =
      some [false, false, false, true] := by
  decide

/-- C10: calling `request_cs` on a `combined_assignments.LamportNode` whose
state is not RELEASED returns immediately, leaves the entire mutex state
(state, clock, queue, reply set) unchanged, and sends no message to any
peer. -/
theorem request_cs_noop :
    ∀ s : MState, s.st ≠ NState.released → mRequestCS s = (s, []) := by
  intro s h
  rw [mRequestCS, if_pos h]

/-- Witness for C10 at a concrete WANTED-state node. -/
theorem request_cs_noop_witness :
    mRequestCS ⟨0, 3, 5, [(5, 0)], [], NState.wanted⟩ =
      (⟨0, 3, 5, [(5, 0)], [], NState.wanted⟩, []) :=
  request_cs_noop ⟨0, 3, 5, [(5, 0)], [], NState.wanted⟩ (by decide)

/-- C5 (corrected): after the request handler runs, the clock of
`combined_assignments.LamportNode.receive_request` and of
`code/node.py receive_request` equals `max(c, t) + 1`, but
`lamport_node.py receive_request` ticks the clock once more before
replying, leaving it at `max(c, t) + 2`. -/
theorem onrequest_clock :
    ∀ (s : MState) (n : NPState) (l : LPState) (ts a b c : Nat),
      (mStep (MOp.recvRequest ts a) s).clock = max s.clock ts + 1 ∧
      (npReceiveRequest n ts b).clock = max n.clock ts + 1 ∧
      (lpReceiveRequest l ts c).clock = max l.clock ts + 2 := by
  intro s n l ts a b c
  refine ⟨?_, rfl, rfl⟩
  simp only [mStep, mReceiveRequest, combinedTick]
  by_cases h : ts ≠ 0
  · rw [if_pos h]
  · rw [if_neg h]
    rw [not_not] at h
    subst h
    rw [Nat.max_zero]

/-- Counterexample to C5 as stated: `lamport_node.py receive_request` at
clock 0 with an incoming timestamp 5 leaves the clock at 7, not
`max(0, 5) + 1 = 6`. -/
theorem onrequest_clock_cex :
    (lpReceiveRequest ⟨0, 2, 0, []⟩ 5 1).clock = 7 ∧ (7 : Nat) ≠ max 0 5 + 1 := by
  decide

/-- C6: for any sequence of mutex operations (requestCS, onRequest,
acknowledgement arrival, entry check, releaseCS, onRelease) run from a
fresh `combined_assignments.LamportNode`, the request queue is sorted by
(timestamp, nodeID) after every mutation. -/
theorem queue_sorted_invariant :
    ∀ (nid total : Nat) (ops : List MOp), QSorted (mRun nid total ops).queue := by
  intro nid total ops
  have h : ∀ (ops' : List MOp) (s : MState), QSorted s.queue →
      QSorted (List.foldl (fun s op => mStep op s) s ops').queue := by
    intro ops'
    induction ops' with
    | nil => exact fun _ hs => hs
    | cons op ops' ih =>
        intro s hs
        rw [List.foldl_cons]
        exact ih _ (mStep_queue_sorted op s hs)
  exact h ops (mInit nid total) (by simp [mInit, QSorted])

/-- C2 (corrected): in `code/lieutenant.py` a traitor stores the received
value verbatim and forwards `_maybe_corrupt` of it (the ATTACK↔RETREAT
inversion); in `byzantine_node.py` the traitor flips the order before
storing, so the locally stored value is itself the inversion of what was
received (as is every forwarded copy); in `combined_assignments.py`
`execute_om` a traitor forwards the unmodified value to odd-numbered
lieutenants, inverting only for even-numbered ones. -/
theorem traitor_relay_behavior :
    (∀ (s : LieuState) (v : String) (path : List Nat),
        alookup s.msgs path = none →
        alookup (lieuReceiveMessage s v path).1.msgs path = some v ∧
        ∀ t ∈ (lieuReceiveMessage s v path).2, t.2.1 = maybeCorrupt s.byzantine v) ∧
    (maybeCorrupt true "ATTACK" = "RETREAT" ∧ maybeCorrupt true "RETREAT" = "ATTACK") ∧
    (∀ (s : ByzLtState) (cid : Nat) (v : String) (path : List Nat),
        s.isTraitor = true →
        alookup s.messages (sortNat path) = none →
        alookup (byzReceiveOrder s cid v path).1.messages (sortNat path) =
          some [byzFlip v] ∧
        ∀ t ∈ (byzReceiveOrder s cid v path).2, t.2.1 = byzFlip v) ∧
    (∀ (v : String) (lt : Nat), lt % 2 = 1 → currentOrder true v lt = v) := by
  refine ⟨?_, ⟨rfl, rfl⟩, ?_, ?_⟩
  · intro s v path hnone
    have hc : (alookup s.msgs path).isSome = false := by rw [hnone]; rfl
    rw [lieuReceiveMessage, if_neg (by simp [hc])]
    constructor
    · exact alookup_append_single v hnone
    · intro t ht
      by_cases hf : path.length < s.f
      · rw [if_pos hf] at ht
        obtain ⟨lid, _, hlid⟩ := List.mem_map.mp ht
        subst hlid
        rfl
      · rw [if_neg hf] at ht
        exact absurd ht (List.not_mem_nil t)
  · intro s cid v path htr hnone
    rw [byzReceiveOrder]
    simp only [htr, if_pos]
    constructor
    · rw [storeAppend_of_absent (byzFlip v) hnone]
      exact alookup_append_single [byzFlip v] hnone
    · intro t ht
      by_cases hp : path.length ≤ 1
      · rw [if_pos hp] at ht
        obtain ⟨lt, _, hlt⟩ := List.mem_map.mp ht
        subst hlt
        rfl
      · rw [if_neg hp] at ht
        exact absurd ht (List.not_mem_nil t)
  · intro v lt h
    rw [currentOrder, if_neg]
    rintro ⟨-, h0⟩
    omega

/-- Witness for C2 at concrete traitor nodes and values. -/
theorem traitor_relay_behavior_witness :
    alookup (lieuReceiveMessage ⟨2, 1, true, [0, 1, 2, 3], []⟩ "ATTACK" [1]).1.msgs [1] =
      some "ATTACK" ∧
    alookup (byzReceiveOrder ⟨3, 4, true, []⟩ 0 "ATTACK" [0]).1.messages (sortNat [0]) =
      some [byzFlip "ATTACK"] ∧
    currentOrder true "ATTACK" 1 = "ATTACK" :=
  ⟨(traitor_relay_behavior.1 ⟨2, 1, true, [0, 1, 2, 3], []⟩ "ATTACK" [1] rfl).1,
   (traitor_relay_behavior.2.2.1 ⟨3, 4, true, []⟩ 0 "ATTACK" [0] rfl rfl).1,
   traitor_relay_behavior.2.2.2 "ATTACK" 1 rfl⟩

/-- Counterexample to C2 as stated: the traitor lieutenant 3 of
`byzantine_node.py` receiving ATTACK on path `[0]` stores RETREAT — not the
unmodified received value — and a `combined_assignments.py` traitor forwards
the unmodified ATTACK to the odd-numbered lieutenant 1 instead of its
inversion. -/
theorem traitor_relay_behavior_cex :
    (byzReceiveOrder ⟨3, 4, true, []⟩ 0 "ATTACK" [0]).1.messages =
      [([0], ["RETREAT"])] ∧
    ("RETREAT" : String) ≠ "ATTACK" ∧
    currentOrder true "ATTACK" 1 = "ATTACK" := by
  decide

/-- C3 (corrected): a `combined_assignments.py` mutex node transitions to
HELD only through the entry check, and only when its state is WANTED, it
holds `totalNodes - 1` replies, and the head of its queue carries its own
id; the `code/node.py` variant however enters its critical section whenever
its own request heads the queue, regardless of how many acks arrived (an
ack shortfall only prints a warning). -/
theorem held_entry_conditions :
    (∀ (s : MState) (op : MOp),
        (mStep op s).st = NState.held → s.st ≠ NState.held →
        op = MOp.tryEnter ∧ s.st = NState.wanted ∧
        s.replies.length = s.total - 1 ∧
        s.queue.head?.map Prod.snd = some s.nid) ∧
    (∀ (total nid clock ackCount : Nat),
        (npRequestCS ⟨nid, total, clock, [], ackCount⟩).1 = true) := by
  constructor
  · intro s op h1 h2
    cases op with
    | recvRequest ts sender =>
        simp only [mStep, mReceiveRequest] at h1
        exact absurd h1 h2
    | recvRelease sender =>
        simp only [mStep, mReceiveRelease] at h1
        exact absurd h1 h2
    | requestCS =>
        simp only [mStep, mRequestCS] at h1
        by_cases hst : s.st ≠ NState.released
        · rw [if_pos hst] at h1
          exact absurd h1 h2
        · rw [if_neg hst] at h1
          exact absurd h1 (by simp)
    | ack j =>
        simp only [mStep, mAckFrom] at h1
        exact absurd h1 h2
    | tryEnter =>
        simp only [mStep, mTryEnter] at h1
        by_cases hc : s.st = NState.wanted ∧ s.replies.length = s.total - 1 ∧
            (s.queue.head?.map Prod.snd = some s.nid)
        · exact ⟨rfl, hc.1, hc.2.1, hc.2.2⟩
        · rw [if_neg hc] at h1
          exact absurd h1 h2
    | releaseCS =>
        simp only [mStep, mReleaseCS] at h1
        exact absurd h1 (by simp)
  · intro total nid clock ackCount
    simp [npRequestCS, pysort, insortLex]

/-- Witness for C3 at a concrete WANTED node with full replies and its own
request at the head of the queue. -/
theorem held_entry_conditions_witness :
    MOp.tryEnter = MOp.tryEnter ∧
    (⟨0, 2, 1, [(1, 0)], [1], NState.wanted⟩ : MState).st = NState.wanted ∧
    (⟨0, 2, 1, [(1, 0)], [1], NState.wanted⟩ : MState).replies.length =
      (⟨0, 2, 1, [(1, 0)], [1], NState.wanted⟩ : MState).total - 1 ∧
    (⟨0, 2, 1, [(1, 0)], [1], NState.wanted⟩ : MState).queue.head?.map Prod.snd =
      some (⟨0, 2, 1, [(1, 0)], [1], NState.wanted⟩ : MState).nid :=
  held_entry_conditions.1 ⟨0, 2, 1, [(1, 0)], [1], NState.wanted⟩ MOp.tryEnter
    (by decide) (by decide)

/-- Counterexample to C3 as stated: `code/node.py request_critical_section`
on a three-node system with zero acknowledgements received still enters the
critical section (first component `true`), although the all-acks check
failed (second component `false`). -/
theorem held_entry_conditions_cex :
    (npRequestCS ⟨1, 3, 0, [], 0⟩).1 = true ∧
    (npRequestCS ⟨1, 3, 0, [], 0⟩).2.1 = false := by
  decide

/-- C4 (corrected): with zero stored messages, `decide` of
`combined_assignments.py` (for a non-commander, any `m`) and `decide` of
`byzantine_node.py` both settle on RETREAT, but `decide` of
`code/lieutenant.py` returns `None` instead of the RETREAT default. -/
theorem decide_empty_default :
    (∀ (m cmdId nid total : Nat) (tr : Bool), nid ≠ cmdId →
        combinedDecide m cmdId ⟨nid, total, tr, []⟩ = some "RETREAT") ∧
    (∀ (nid total : Nat) (tr : Bool), byzDecide ⟨nid, total, tr, []⟩ = "RETREAT") ∧
    (∀ s : LieuState, s.msgs = [] → lieuDecide s = none) := by
  refine ⟨?_, fun nid total tr => rfl, ?_⟩
  · intro m cmd nid total tr hne
    rw [combinedDecide, if_neg hne]
    by_cases hm : m = 0
    · rw [if_pos hm]
      rfl
    · rw [if_neg hm]
      rw [pyMajority_all_retreat _ (allValues_empty_retreat total cmd nid)
        (allValues_ne_nil total cmd nid [])]
  · intro s h
    rw [lieuDecide]
    simp [h]

/-- Witness for C4 at concrete empty-store nodes. -/
theorem decide_empty_default_witness :
    combinedDecide 1 0 ⟨1, 4, false, []⟩ = some "RETREAT" ∧
    byzDecide ⟨1, 4, false, []⟩ = "RETREAT" ∧
    lieuDecide ⟨1, 1, false, [0], []⟩ = none :=
  ⟨decide_empty_default.1 1 0 1 4 false (by decide),
   decide_empty_default.2.1 1 4 false,
   decide_empty_default.2.2 ⟨1, 1, false, [0], []⟩ rfl⟩

/-- Counterexample to C4 as stated: `code/lieutenant.py decide()` on a node
with zero stored messages returns `None`, not RETREAT. -/
theorem decide_empty_default_cex :
    lieuDecide ⟨1, 1, false, [0], []⟩ = none ∧
    (none : Option String) ≠ some "RETREAT" := by
  decide

/-- C7 (corrected): for `m > 0`, `decide` of `combined_assignments.py`
applies `_majority` to the collected list headed by the direct commander
value; when ATTACK and RETREAT occur equally often in that list, the result
is the first-collected value — the direct commander value — because
`Counter.most_common(1)` breaks count ties by first occurrence, not toward
RETREAT. -/
theorem majority_tie_commander :
    ∀ (total m cmdId nid : Nat) (tr : Bool) (msgs : List (String × List String)),
      m ≠ 0 → nid ≠ cmdId →
      (∀ v ∈ combinedAllValues total cmdId nid msgs, v = "ATTACK" ∨ v = "RETREAT") →
      (combinedAllValues total cmdId nid msgs).count "ATTACK" =
        (combinedAllValues total cmdId nid msgs).count "RETREAT" →
      combinedDecide m cmdId ⟨nid, total, tr, msgs⟩ = some (combinedVCmd msgs cmdId) := by
  intro total m cmd nid tr msgs hm hne hall htie
  obtain ⟨t, ht⟩ : ∃ t, combinedAllValues total cmd nid msgs = combinedVCmd msgs cmd :: t :=
    ⟨_, rfl⟩
  rw [combinedDecide, if_neg hne, if_neg hm, ht]
  rw [ht] at hall htie
  rw [pyMajority, if_neg (List.cons_ne_nil _ _), mostCommon1_tie _ _ hall htie]
  rfl

/-- Witness for C7: a tied store where the direct commander value is
ATTACK; `decide` returns exactly the commander value. -/
theorem majority_tie_commander_witness :
    combinedDecide 1 0 ⟨1, 3, false, [("0", ["ATTACK"]), ("0->2", ["RETREAT"])]⟩ =
      some (combinedVCmd [("0", ["ATTACK"]), ("0->2", ["RETREAT"])] 0) :=
  majority_tie_commander 3 1 0 1 false [("0", ["ATTACK"]), ("0->2", ["RETREAT"])]
    (by decide) (by decide) (by decide) (by decide)

/-- Counterexample to C7 as stated: with one ATTACK (from the commander)
and one RETREAT (relayed), the counts tie, yet `decide` returns ATTACK —
not the claimed RETREAT. -/
theorem majority_tie_commander_cex :
    (combinedAllValues 3 0 1 [("0", ["ATTACK"]), ("0->2", ["RETREAT"])]).count "ATTACK" =
      (combinedAllValues 3 0 1 [("0", ["ATTACK"]), ("0->2", ["RETREAT"])]).count "RETREAT" ∧
    combinedDecide 1 0 ⟨1, 3, false, [("0", ["ATTACK"]), ("0->2", ["RETREAT"])]⟩ =
      some "ATTACK" ∧
    ("ATTACK" : String) ≠ "RETREAT" := by
  decide

/-- C8 (corrected): `run_byzantine_simulation` of `combined_assignments.py`
rejects any configuration with `totalNodes ≤ 3·m` before constructing a
node or sending a message, but the standalone `byzantine_node.py` performs
no such validation: its lieutenants accept, store and relay orders for any
`total_nodes` whatsoever. -/
theorem config_bound_check :
    (∀ (total m : Nat) (order : String), total ≤ 3 * m →
        runByzantine total m order = none) ∧
    (∀ (nid total : Nat) (v : String),
        (byzReceiveOrder ⟨nid, total, false, []⟩ 0 v [0]).1.messages = [([0], [v])]) := by
  constructor
  · intro total m order h
    rw [runByzantine, if_pos h]
  · intro nid total v
    rfl

/-- Witness for C8: the bound `3 ≤ 3·1` makes the combined simulation
refuse to run, while a standalone lieutenant still stores an order. -/
theorem config_bound_check_witness :
    runByzantine 3 1 "ATTACK" = none ∧
    (byzReceiveOrder ⟨1, 3, false, []⟩ 0 "ATTACK" [0]).1.messages =
      [([0], ["ATTACK"])] :=
  ⟨config_bound_check.1 3 1 "ATTACK" (by decide), config_bound_check.2 1 3 "ATTACK"⟩

/-- Counterexample to C8 as stated: in a `byzantine_node.py` system with
`total_nodes = 3` and its hard-coded `m = 1` (violating `N > 3m`), a
lieutenant both stores an order and forwards it — the configuration is not
rejected and messages do flow. -/
theorem config_bound_check_cex :
    3 ≤ 3 * 1 ∧
    (byzReceiveOrder ⟨1, 3, false, []⟩ 0 "ATTACK" [0]).1.messages ≠ [] ∧
    (byzReceiveOrder ⟨1, 3, false, []⟩ 0 "ATTACK" [0]).2 ≠ [] := by
  decide

/-- C9 (corrected): `receive_message` of `code/lieutenant.py` is idempotent
per path — a second arrival for an already-stored path leaves the store
unchanged (first write wins) and applying the handler twice equals applying
it once; but `receive_order` of `byzantine_node.py` appends every arrival
to the per-path list, so duplicate delivery does change the store contents
there. -/
theorem relay_idempotent :
    (∀ (s : LieuState) (v : String) (path : List Nat),
        lieuReceiveMessage (lieuReceiveMessage s v path).1 v path =
          ((lieuReceiveMessage s v path).1, [])) ∧
    (∀ (s : LieuState) (v w : String) (path : List Nat),
        alookup s.msgs path = some w →
        (lieuReceiveMessage s v path).1 = s) := by
  constructor
  · intro s v path
    by_cases hc : (alookup s.msgs path).isSome = true
    · have h1 : lieuReceiveMessage s v path = (s, []) := by
        rw [lieuReceiveMessage, if_pos hc]
      rw [h1]
      exact h1
    · have hnone : alookup s.msgs path = none := by
        rcases h : alookup s.msgs path with _ | w
        · rfl
        · rw [h] at hc
          exact absurd rfl hc
      have h1 : (lieuReceiveMessage s v path).1 =
          { s with msgs := s.msgs ++ [(path, v)] } := by
        rw [lieuReceiveMessage, if_neg hc]
      have h2 : (alookup ({ s with msgs := s.msgs ++ [(path, v)] } : LieuState).msgs
          path).isSome = true := by
        rw [show ({ s with msgs := s.msgs ++ [(path, v)] } : LieuState).msgs =
          s.msgs ++ [(path, v)] from rfl, alookup_append_single v hnone]
        rfl
      rw [h1, lieuReceiveMessage, if_pos h2]
  · intro s v w path hw
    have hs : (alookup s.msgs path).isSome = true := by rw [hw]; rfl
    rw [lieuReceiveMessage, if_pos hs]

/-- Witness for C9: a duplicate arrival at a concrete stored path is a
no-op for `code/lieutenant.py`. -/
theorem relay_idempotent_witness :
    lieuReceiveMessage (lieuReceiveMessage ⟨1, 1, false, [0, 1, 2], []⟩ "ATTACK" [0]).1
        "ATTACK" [0] =
      ((lieuReceiveMessage ⟨1, 1, false, [0, 1, 2], []⟩ "ATTACK" [0]).1, []) ∧
    (lieuReceiveMessage ⟨1, 1, false, [0, 1, 2], [([0], "ATTACK")]⟩ "RETREAT" [0]).1 =
      ⟨1, 1, false, [0, 1, 2], [([0], "ATTACK")]⟩ :=
  ⟨relay_idempotent.1 ⟨1, 1, false, [0, 1, 2], []⟩ "ATTACK" [0],
   relay_idempotent.2 ⟨1, 1, false, [0, 1, 2], [([0], "ATTACK")]⟩ "RETREAT" "ATTACK" [0] rfl⟩

/-- Counterexample to C9 as stated: applying `byzantine_node.py`'s
`receive_order` twice with identical arguments does not yield the same
store contents as applying it once — the order is appended again. -/
theorem relay_idempotent_cex :
    (byzReceiveOrder (byzReceiveOrder ⟨1, 4, false, []⟩ 0 "ATTACK" [0]).1
        0 "ATTACK" [0]).1.messages = [([0], ["ATTACK", "ATTACK"])] ∧
    ([([0], ["ATTACK", "ATTACK"])] : List (List Nat × List String)) ≠
      (byzReceiveOrder ⟨1, 4, false, []⟩ 0 "ATTACK" [0]).1.messages := by
  decide

end DistAssign
